import Mathlib

/-!
Verification development for the posts API of the `my-tech-stack` repository.

The repository exposes three operations over an in-memory list of posts:

* `createPost` (POST /api/v1/posts) — validates the body against
  `PostSchema.omit({id})` (zod: `title`/`body` are strings, trimmed, minimum
  length 1), then `PostService.createPost` appends a post whose id is
  `posts.length + 1` and the controller answers 201 with the
  `{status: "CREATED", data}` envelope;
* `getPost` (GET /api/v1/posts/:id) — the path parameter is coerced from its
  textual representation to a number (`z.coerce.number()`), then
  `PostService.getPostById` looks the id up with `findIndex`; the controller
  answers 200 `{status: "OK", data}` or 404
  `{status: "NOT_FOUND", message: "Post not found"}`;
* `getPosts` (GET /api/v1/posts) — `PostService.getAllPosts` returns the list
  and the controller answers 200 `{status: "OK", data}`.

The store starts with two seed posts (ids 1 and 2).  The definitions below are
a shallow embedding of `src/apps/api/src/controllers/post.controller.ts`
(controller and service), `src/packages/ts-rest/src/routes/post.router.ts`
(the contract: body schema and path-parameter coercion) and
`src/packages/ts-rest/src/utils/response.ts` (the envelope shapes).
Mutation of the service's private `posts` array is embedded as explicit state
passing: every operation takes the store and returns the response paired with
the store after the call.
-/

/-- A post entity, as in `PostSchema` of `post.router.ts`: numeric `id`,
string `title`, string `body`.  Ids are embedded as integers (JavaScript
numbers; every id the service ever assigns is the integer `length + 1`). -/
structure Post where
  id : Int
  title : String
  body : String
deriving Repr, DecidableEq

/-- The state of `PostService`: its private `posts` array. -/
structure PostStore where
  posts : List Post
deriving Repr, DecidableEq

/-- The initial value of the `posts` field of `PostService`: the two seed
posts, ids 1 and 2. -/
def seedPosts : List Post :=
  [{ id := 1, title := "First Post",
     body := "This is the content of the first post." },
   { id := 2, title := "Second Post",
     body := "This is the content of the second post." }]

/-- The store at process start. -/
def seedStore : PostStore := { posts := seedPosts }

/-- A JavaScript number as delivered to the `getPost` handler by the
`z.coerce.number()` path-parameter coercion: either a finite value,
represented exactly as `mant * 10 ^ exp10` (the decimal value the numeric
literal denotes), or one of the two infinities.  NaN is excluded because
`z.number()` rejects it, so a NaN coercion result never reaches the handler.
Caveat of the model: JavaScript stores numbers as binary64 floats, so
literals beyond 17 significant digits are rounded and magnitudes beyond
about 1.8e308 overflow to Infinity; this embedding keeps the exact decimal
value instead. -/
inductive JsNum where
  /-- A finite number with decimal value `mant * 10 ^ exp10`. -/
  | finite (mant : Int) (exp10 : Int)
  /-- Positive Infinity, e.g. from the literal `Infinity`. -/
  | posInf
  /-- Negative Infinity, from the literal `-Infinity`. -/
  | negInf
deriving Repr, DecidableEq

/-- JavaScript strict equality `a === b` between a stored id (always an
integer) and a coerced path-parameter number, as used in the service's
`post.id === id`: exact numeric comparison, and an infinity equals no
integer.  (JavaScript compares the two binary64 values; for the integer ids
the store holds and coerced values within float precision the two notions
agree, per the rounding caveat on `JsNum`.) -/
def jsStrictEq (a : Int) (b : JsNum) : Bool :=
  match b with
  | .finite m e =>
      if 0 ≤ e then a == m * (10 : Int) ^ e.toNat
      else a * (10 : Int) ^ (-e).toNat == m
  | .posInf => false
  | .negInf => false

/-- Embedding of `PostService.getAllPosts`: `return this.posts`. -/
def PostService.getAllPosts (s : PostStore) : List Post :=
  s.posts

/-- Embedding of `PostService.getPostById`: `findIndex` on `post.id === id`,
returning the element at the found index, `null` (here `none`) when the index
is `-1` (here when `findIdx?` yields `none`).  The argument is the number the
coercion boundary delivered. -/
def PostService.getPostById (s : PostStore) (id : JsNum) : Option Post :=
  match s.posts.findIdx? (fun post => jsStrictEq post.id id) with
  | some postIndex => s.posts[postIndex]?
  | none => none

/-- Embedding of `PostService.createPost`: builds
`{ id: this.posts.length + 1, ...post }`, pushes it, returns it.  The result
pairs the new post with the store after the push. -/
def PostService.createPost (s : PostStore) (title body : String) :
    Post × PostStore :=
  let newPost : Post := { id := (s.posts.length : Int) + 1, title, body }
  (newPost, { posts := s.posts ++ [newPost] })

/-- Response-envelope bodies, from `response.ts` (plus the body NestJS
serializes for a thrown `HttpException`, which is not one of the declared
envelopes).  The `status` discriminant of each envelope is recovered by
`ApiBody.tag`. -/
inductive ApiBody where
  /-- Envelope `SUCCESS(PostSchema)`: `{status: "OK", data: post}`. -/
  | okPost (data : Post)
  /-- Envelope `SUCCESS(z.array(PostSchema))`: `{status: "OK", data: posts}`. -/
  | okPosts (data : List Post)
  /-- Envelope `CREATED(PostSchema)`: `{status: "CREATED", data: post}`. -/
  | created (data : Post)
  /-- Envelope `NOT_FOUND`: `{status: "NOT_FOUND", message}`. -/
  | notFound (message : String)
  /-- Envelope `BAD_REQUEST`: `{status: "BAD_REQUEST", message}`. -/
  | badRequest (message : String)
  /-- Envelope `INTERNAL_SERVER_ERROR`:
  `{status: "INTERNAL_SERVER_ERROR", message}`. -/
  | internalServerError (message : String)
  /-- The body NestJS sends for `throw new HttpException(message, statusCode)`
  with a string argument: `{statusCode, message}`.  This object has no
  `status` discriminant field, so it matches none of the declared envelope
  schemas.  Modelled from NestJS's documented `HttpException` serialization,
  which is library code outside this repository. -/
  | nestError (statusCode : Nat) (message : String)
deriving Repr, DecidableEq

/-- The value of the `status` discriminant field inside an envelope body;
`none` for the NestJS default exception body, which has no such field. -/
def ApiBody.tag : ApiBody → Option String
  | .okPost _ => some "OK"
  | .okPosts _ => some "OK"
  | .created _ => some "CREATED"
  | .notFound _ => some "NOT_FOUND"
  | .badRequest _ => some "BAD_REQUEST"
  | .internalServerError _ => some "INTERNAL_SERVER_ERROR"
  | .nestError _ _ => none

/-- A `{status, body}` pair as returned by the handlers: HTTP status code and
envelope body. -/
structure Response where
  status : Nat
  body : ApiBody
deriving Repr, DecidableEq

/-- Embedding of the `PostController.getAllPosts` handler (normal path: the
in-memory service never throws): 200 with `{status: "OK", data: posts}`. -/
def PostController.getAllPosts (s : PostStore) : Response × PostStore :=
  ({ status := 200, body := .okPosts (PostService.getAllPosts s) }, s)

/-- Embedding of the `PostController.getPostById` handler (normal path): when
the service returns `null` it answers 404 `{status: "NOT_FOUND", message:
"Post not found"}`, otherwise 200 `{status: "OK", data: post}`. -/
def PostController.getPostById (s : PostStore) (id : JsNum) :
    Response × PostStore :=
  match PostService.getPostById s id with
  | none => ({ status := 404, body := .notFound "Post not found" }, s)
  | some post => ({ status := 200, body := .okPost post }, s)

/-- Embedding of the `PostController.createPost` handler (normal path): calls
the service with the validated body and answers 201 with
`{status: "CREATED", data: post}`. -/
def PostController.createPost (s : PostStore) (title body : String) :
    Response × PostStore :=
  let r := PostService.createPost s title body
  ({ status := 201, body := .created r.1 }, r.2)

/-- The `try/catch` of `PostController.getAllPosts` with the service call's
outcome made explicit: on an exception (`Except.error`) the controller throws
`new HttpException('Internal Server Error', 500)`, which NestJS surfaces as
HTTP 500 with body `{statusCode: 500, message: "Internal Server Error"}`. -/
def PostController.getAllPostsCaught (svc : Except String (List Post)) :
    Response :=
  match svc with
  | .ok posts => { status := 200, body := .okPosts posts }
  | .error _ => { status := 500, body := .nestError 500 "Internal Server Error" }

/-- JavaScript `String.prototype.trim`, as invoked by zod's `.trim()` in
`PostSchema`: removes leading and trailing whitespace.  Embedded structurally
over the character list so that it evaluates inside the kernel. -/
def jsTrim (s : String) : String :=
  String.mk (((s.data.dropWhile Char.isWhitespace).reverse.dropWhile
    Char.isWhitespace).reverse)

/-- Validation of a `createPost` body against
`PostSchema.omit({id: true})` from `post.router.ts`: both `title` and `body`
are strings transformed by `.trim()` and then required to have
`.min(1)` length.  Returns the validated (trimmed) fields on success, `none`
on a validation failure. -/
def validateCreateBody (title body : String) :
    Option (String × String) :=
  let t := jsTrim title
  let b := jsTrim body
  if t.length < 1 then none
  else if b.length < 1 then none
  else some (t, b)

/-- Decimal digit accumulation that fails on the first non-digit character;
used for the exponent part of a numeric literal. -/
def parseDigits : List Char → Nat → Option Nat
  | [], acc => some acc
  | c :: rest, acc =>
      if c.isDigit then parseDigits rest (acc * 10 + (c.toNat - '0'.toNat))
      else none

/-- A non-empty all-digit run parsed to its decimal value. -/
def parseDigits1 (cs : List Char) : Option Nat :=
  match cs with
  | [] => none
  | _ => parseDigits cs 0

/-- The whitespace set JavaScript strips around a string it converts to a
number (ECMAScript StrWhiteSpaceChar): tab, line feed, vertical tab, form
feed, carriage return, space, no-break space, the Unicode space separators,
line separator, paragraph separator, narrow no-break space, medium
mathematical space, ideographic space, and the byte-order mark. -/
def jsStrWhitespace (c : Char) : Bool :=
  c.toNat == 0x09 || c.toNat == 0x0A || c.toNat == 0x0B || c.toNat == 0x0C ||
  c.toNat == 0x0D || c.toNat == 0x20 || c.toNat == 0xA0 ||
  c.toNat == 0x1680 || (0x2000 ≤ c.toNat && c.toNat ≤ 0x200A) ||
  c.toNat == 0x2028 || c.toNat == 0x2029 || c.toNat == 0x202F ||
  c.toNat == 0x205F || c.toNat == 0x3000 || c.toNat == 0xFEFF

/-- Total decimal-digit accumulation (callers supply all-digit runs obtained
with `takeWhile Char.isDigit`). -/
def digitsToNat : List Char → Nat → Nat
  | [], acc => acc
  | c :: rest, acc => digitsToNat rest (acc * 10 + (c.toNat - '0'.toNat))

/-- Hexadecimal digit value, when the character is one. -/
def hexVal? (c : Char) : Option Nat :=
  if c.isDigit then some (c.toNat - '0'.toNat)
  else if 'a'.toNat ≤ c.toNat && c.toNat ≤ 'f'.toNat then
    some (c.toNat - 'a'.toNat + 10)
  else if 'A'.toNat ≤ c.toNat && c.toNat ≤ 'F'.toNat then
    some (c.toNat - 'A'.toNat + 10)
  else none

/-- Octal digit value, when the character is one. -/
def octVal? (c : Char) : Option Nat :=
  if c.isDigit && c.toNat ≤ '7'.toNat then some (c.toNat - '0'.toNat)
  else none

/-- Binary digit value, when the character is one. -/
def binVal? (c : Char) : Option Nat :=
  if c == '0' then some 0 else if c == '1' then some 1 else none

/-- Digit accumulation in an arbitrary base, failing on the first character
that is not a digit of that base. -/
def parseRadixDigits (dv : Char → Option Nat) (base : Nat) :
    List Char → Nat → Option Nat
  | [], acc => some acc
  | c :: rest, acc =>
      match dv c with
      | some d => parseRadixDigits dv base rest (acc * base + d)
      | none => none

/-- A non-decimal integer literal body (the digits after `0x`/`0o`/`0b`):
non-empty, fully consumed, yielding an integer `JsNum`. -/
def parseRadix1 (dv : Char → Option Nat) (base : Nat) (cs : List Char) :
    Option JsNum :=
  match cs with
  | [] => none
  | _ => (parseRadixDigits dv base cs 0).map (fun n => .finite (n : Int) 0)

/-- The exponent part after the `e`/`E` marker: an optional sign followed by
at least one decimal digit. -/
def parseExp (cs : List Char) : Option Int :=
  match cs with
  | '+' :: rest => (parseDigits1 rest).map (fun n => (n : Int))
  | '-' :: rest => (parseDigits1 rest).map (fun n => -(n : Int))
  | _ => (parseDigits1 cs).map (fun n => (n : Int))

/-- An unsigned decimal literal (ECMAScript StrUnsignedDecimalLiteral minus
`Infinity`, which the caller checks): integer digits, an optional `.` with
optional fraction digits, an optional exponent part; at least one digit must
be present and the whole input must be consumed.  The value is kept exactly
as mantissa and power of ten. -/
def parseDecimalLit (cs : List Char) : Option JsNum :=
  let intPart := cs.takeWhile Char.isDigit
  let rest1 := cs.dropWhile Char.isDigit
  let fracPart :=
    match rest1 with
    | '.' :: r => r.takeWhile Char.isDigit
    | _ => []
  let rest2 :=
    match rest1 with
    | '.' :: r => r.dropWhile Char.isDigit
    | _ => rest1
  if intPart.isEmpty && fracPart.isEmpty then none
  else
    let mant : Int := (digitsToNat (intPart ++ fracPart) 0 : Int)
    match rest2 with
    | [] => some (.finite mant (-(fracPart.length : Int)))
    | c :: r =>
        if c == 'e' || c == 'E' then
          (parseExp r).map
            (fun ev => .finite mant (ev - (fracPart.length : Int)))
        else none

/-- An unsigned numeric literal: the keyword `Infinity` or an unsigned
decimal literal. -/
def parseUnsignedNumeric (cs : List Char) : Option JsNum :=
  if cs = "Infinity".data then some .posInf
  else parseDecimalLit cs

/-- Negation of a JavaScript number, for a leading minus sign. -/
def JsNum.neg : JsNum → JsNum
  | .finite m e => .finite (-m) e
  | .posInf => .negInf
  | .negInf => .posInf

/-- The `z.coerce.number()` coercion of the `:id` path parameter declared in
`postContract.getPost`: JavaScript `Number(raw)` followed by `z.number()`,
which rejects exactly NaN.  Modelled on the ECMAScript StringNumericLiteral
grammar `Number()` evaluates on strings: surrounding whitespace is stripped;
an empty remainder is 0; a sign may precede `Infinity` or a decimal literal
(digits, optional fraction, optional exponent); an unsigned `0x`/`0o`/`0b`
prefix introduces a hexadecimal, octal or binary integer; every other string
is NaN (`none` here) and fails validation.  Finite values are kept exactly,
per the rounding caveat on `JsNum`. -/
def coerceNumber (raw : String) : Option JsNum :=
  let cs := ((raw.data.dropWhile jsStrWhitespace).reverse.dropWhile
    jsStrWhitespace).reverse
  match cs with
  | [] => some (.finite 0 0)
  | '+' :: rest => parseUnsignedNumeric rest
  | '-' :: rest => (parseUnsignedNumeric rest).map JsNum.neg
  | '0' :: c :: rest =>
      if c == 'x' || c == 'X' then parseRadix1 hexVal? 16 rest
      else if c == 'o' || c == 'O' then parseRadix1 octVal? 8 rest
      else if c == 'b' || c == 'B' then parseRadix1 binVal? 2 rest
      else parseUnsignedNumeric ('0' :: c :: rest)
  | other => parseUnsignedNumeric other

/-- Message used for the 400 envelope produced at the validation boundary.
Modelled from the spec: the `@ts-rest/nest` binding layer (library code, not
in this repository's sources) rejects invalid input before the handler runs,
surfacing the operation's declared 400-class `BAD_REQUEST` envelope. -/
def validationFailedMessage : String := "Bad Request"

/-- The `createPost` operation as routed: the body is validated against the
contract's schema before the handler runs; on failure the 400 `BAD_REQUEST`
envelope is returned and the handler is not invoked (store untouched); on
success the handler receives the validated (trimmed) body. -/
def Api.createPost (s : PostStore) (title body : String) :
    Response × PostStore :=
  match validateCreateBody title body with
  | none => ({ status := 400, body := .badRequest validationFailedMessage }, s)
  | some (t, b) => PostController.createPost s t b

/-- The `getPost` operation as routed: the `:id` path parameter is coerced to
a number before the handler runs; when the coercion yields NaN (the segment
is not a numeric string) validation fails, the 400 envelope is returned and
the handler is not invoked; otherwise the handler receives the coerced
number. -/
def Api.getPost (s : PostStore) (raw : String) : Response × PostStore :=
  match coerceNumber raw with
  | none => ({ status := 400, body := .badRequest validationFailedMessage }, s)
  | some id => PostController.getPostById s id

/-- The `getPosts` operation as routed: no parameters, no body; the handler
runs directly. -/
def Api.getPosts (s : PostStore) : Response × PostStore :=
  PostController.getAllPosts s

/-- One client call against one of the three operations of the posts
contract. -/
inductive Call where
  /-- POST /api/v1/posts with body `{title, body}`. -/
  | create (title body : String)
  /-- GET /api/v1/posts/:id with the textual path segment `raw`. -/
  | getOne (raw : String)
  /-- GET /api/v1/posts. -/
  | getAll
deriving Repr, DecidableEq

/-- The store after serving one call. -/
def stepCall (s : PostStore) : Call → PostStore
  | .create title body => (Api.createPost s title body).2
  | .getOne raw => (Api.getPost s raw).2
  | .getAll => (Api.getPosts s).2

/-- The store after serving a sequence of calls from process start. -/
def runCalls (cs : List Call) : PostStore :=
  cs.foldl stepCall seedStore

/-- A store state is reachable when some sequence of calls starting at the
seed state produces it. -/
inductive Reachable : PostStore → Prop where
  | seed : Reachable seedStore
  | step (s : PostStore) (c : Call) : Reachable s → Reachable (stepCall s c)

/-- Whether a call is a `createPost` whose body passes validation (these are
exactly the calls that answer 201 and enlarge the store). -/
def successfulCreate : Call → Bool
  | .create title body => (validateCreateBody title body).isSome
  | _ => false

/-- Number of successful `createPost` calls in a call sequence. -/
def successfulCreates (cs : List Call) : Nat :=
  cs.countP successfulCreate

/-- The list of integers `[1, 2, ..., n]`: the canonical id sequence of a
store holding `n` posts. -/
def intRange : Nat → List Int
  | 0 => []
  | n + 1 => intRange n ++ [(n : Int) + 1]

/-- The invariant C10 is about: the ids of the stored posts read, in order,
`1, 2, ..., n` where `n` is the number of stored posts. -/
def idsSequential (s : PostStore) : Prop :=
  s.posts.map Post.id = intRange s.posts.length

instance (s : PostStore) : Decidable (idsSequential s) := by
  unfold idsSequential; infer_instance

/-- The post `PostService.createPost` builds for a validated (trimmed)
payload against store `s`. -/
def newPostOf (s : PostStore) (title body : String) : Post :=
  { id := (s.posts.length : Int) + 1,
    title := jsTrim title, body := jsTrim body }

/-- The fixed pairing between the envelope discriminant tags emitted by the
controller handlers and the HTTP status codes carrying them. -/
def handlerPairing : List (Nat × Option String) :=
  [(200, some "OK"), (201, some "CREATED"), (404, some "NOT_FOUND")]

theorem intRange_succ (n : Nat) :
    intRange (n + 1) = intRange n ++ [(n : Int) + 1] := rfl

theorem length_intRange (n : Nat) : (intRange n).length = n := by
  induction n with
  | zero => rfl
  | succ n ih => simp [intRange, ih]

theorem mem_intRange {x : Int} {n : Nat} (hx : x ∈ intRange n) :
    1 ≤ x ∧ x ≤ (n : Int) := by
  induction n with
  | zero => cases hx
  | succ n ih =>
      rcases List.mem_append.mp hx with h | h
      · rcases ih h with ⟨h1, h2⟩
        exact ⟨h1, le_trans h2 (by push_cast; omega)⟩
      · rcases List.mem_singleton.mp h with rfl
        constructor <;> push_cast <;> omega

theorem intRange_nodup (n : Nat) : (intRange n).Nodup := by
  induction n with
  | zero => exact List.nodup_nil
  | succ n ih =>
      rw [intRange_succ, List.nodup_append]
      refine ⟨ih, List.nodup_singleton _, ?_⟩
      intro x hx hmem
      rcases List.mem_singleton.mp hmem with rfl
      rcases mem_intRange hx with ⟨-, h2⟩
      omega

theorem getElem?_intRange (n i : Nat) (h : i < n) :
    (intRange n)[i]? = some ((i : Int) + 1) := by
  induction n with
  | zero => omega
  | succ n ih =>
      rw [intRange_succ]
      rcases Nat.lt_succ_iff_lt_or_eq.mp h with h' | rfl
      · rw [List.getElem?_append, if_pos (by rw [length_intRange]; exact h')]
        exact ih h'
      · rw [List.getElem?_append, if_neg (by rw [length_intRange]; omega)]
        simp [length_intRange]

theorem getElem_intRange (n i : Nat) (h : i < (intRange n).length) :
    (intRange n)[i] = (i : Int) + 1 := by
  have h' : i < n := by rwa [length_intRange] at h
  have hq := getElem?_intRange n i h'
  rw [List.getElem?_eq_getElem h] at hq
  exact Option.some_injective _ hq

theorem jsStrictEq_finite_zero (a m : Int) :
    jsStrictEq a (.finite m 0) = (a == m) := by
  simp [jsStrictEq]

theorem stepCall_reads_id (s : PostStore) (raw : String) :
    (Api.getPost s raw).2 = s := by
  cases hc : coerceNumber raw with
  | none => simp [Api.getPost, hc]
  | some id =>
      cases hp : PostService.getPostById s id <;>
        simp [Api.getPost, PostController.getPostById, hc, hp]

theorem stepCall_reads_all (s : PostStore) : (Api.getPosts s).2 = s := rfl

theorem createPost_store_valid (s : PostStore) {title body t b : String}
    (h : validateCreateBody title body = some (t, b)) :
    (Api.createPost s title body).2 =
      { posts := s.posts ++ [{ id := (s.posts.length : Int) + 1,
                               title := t, body := b }] } := by
  simp [Api.createPost, h, PostController.createPost, PostService.createPost]

theorem createPost_store_invalid (s : PostStore) {title body : String}
    (h : validateCreateBody title body = none) :
    (Api.createPost s title body).2 = s := by
  simp [Api.createPost, h]

theorem reachable_ids_sequential_aux {s : PostStore} (hs : Reachable s) :
    idsSequential s := by
  induction hs with
  | seed => decide
  | step s c hr ih =>
      cases c with
      | create title body =>
          simp only [stepCall]
          cases h : validateCreateBody title body with
          | none => rw [createPost_store_invalid s h]; exact ih
          | some tb =>
              rw [createPost_store_valid s h]
              unfold idsSequential at ih ⊢
              simp only [List.map_append, List.length_append, List.map_cons,
                List.map_nil, List.length_cons, List.length_nil]
              rw [ih]
              show intRange s.posts.length ++ [(s.posts.length : Int) + 1] =
                intRange (s.posts.length + (0 + 1))
              rw [Nat.zero_add, intRange_succ]
      | getOne raw => simpa only [stepCall, stepCall_reads_id] using ih
      | getAll => simpa only [stepCall, stepCall_reads_all] using ih

theorem findIdx?_cons0 {α : Type} (p : α → Bool) (a : α) (l : List α) :
    (a :: l).findIdx? p =
      if p a then some 0 else (l.findIdx? p).map (· + 1) := by
  rw [List.findIdx?_cons, List.findIdx?_succ]

theorem find?_eq_none_of_findIdx?_eq_none {α : Type} {p : α → Bool}
    {l : List α} (h : l.findIdx? p = none) : l.find? p = none := by
  induction l with
  | nil => rfl
  | cons a l ih =>
      rw [findIdx?_cons0] at h
      by_cases hpa : p a
      · simp [hpa] at h
      · rw [if_neg hpa] at h
        rw [Option.map_eq_none'] at h
        simp [List.find?_cons, hpa, ih h]

theorem getElem?_of_findIdx?_eq_some {α : Type} {p : α → Bool} {l : List α}
    {i : Nat} (h : l.findIdx? p = some i) : l[i]? = l.find? p := by
  induction l generalizing i with
  | nil => simp [List.findIdx?] at h
  | cons a l ih =>
      rw [findIdx?_cons0] at h
      by_cases hpa : p a
      · rw [if_pos hpa] at h
        cases h
        simp [List.find?_cons, hpa]
      · rw [if_neg hpa] at h
        cases hfi : l.findIdx? p with
        | none => rw [hfi] at h; simp at h
        | some j =>
            rw [hfi] at h
            simp only [Option.map, Option.some.injEq] at h
            subst h
            simpa [List.find?_cons, hpa, List.getElem?_cons_succ]
              using ih hfi

theorem getPostById_eq_find? (s : PostStore) (id : JsNum) :
    PostService.getPostById s id =
      s.posts.find? (fun post => jsStrictEq post.id id) := by
  unfold PostService.getPostById
  cases hfi : s.posts.findIdx? (fun post => jsStrictEq post.id id) with
  | none => rw [find?_eq_none_of_findIdx?_eq_none hfi]
  | some i => exact getElem?_of_findIdx?_eq_some hfi

theorem stepCall_length (s : PostStore) (c : Call) :
    (stepCall s c).posts.length =
      s.posts.length + (if successfulCreate c then 1 else 0) := by
  cases c with
  | create title body =>
      cases h : validateCreateBody title body with
      | none =>
          simp [stepCall, createPost_store_invalid s h, successfulCreate, h]
      | some tb =>
          obtain ⟨t, b⟩ := tb
          simp [stepCall, createPost_store_valid s h, successfulCreate, h]
  | getOne raw => simp [stepCall, stepCall_reads_id, successfulCreate]
  | getAll => simp [stepCall, stepCall_reads_all, successfulCreate]

theorem foldl_stepCall_length (cs : List Call) :
    ∀ s : PostStore, (cs.foldl stepCall s).posts.length =
      s.posts.length + successfulCreates cs := by
  induction cs with
  | nil => intro s; simp [successfulCreates]
  | cons c cs ih =>
      intro s
      rw [List.foldl_cons, ih, stepCall_length]
      unfold successfulCreates
      rw [List.countP_cons]
      cases hc : successfulCreate c
      · simp [hc]
      · simp [hc]
        omega

theorem runCalls_length (cs : List Call) :
    (runCalls cs).posts.length = seedPosts.length + successfulCreates cs := by
  rw [runCalls, foldl_stepCall_length]
  rfl

theorem not_length_lt_one_of_ne_empty {s : String} (h : s ≠ "") :
    ¬ s.length < 1 := by
  intro hl
  apply h
  cases s with
  | mk data =>
      cases data with
      | nil => rfl
      | cons c cs => simp [String.length] at hl

theorem validateCreateBody_eq_some {title body : String}
    (ht : jsTrim title ≠ "") (hb : jsTrim body ≠ "") :
    validateCreateBody title body = some (jsTrim title, jsTrim body) := by
  simp only [validateCreateBody]
  rw [if_neg (not_length_lt_one_of_ne_empty ht),
    if_neg (not_length_lt_one_of_ne_empty hb)]

theorem validateCreateBody_eq_none {title body : String}
    (h : jsTrim title = "" ∨ jsTrim body = "") :
    validateCreateBody title body = none := by
  simp only [validateCreateBody]
  rcases h with h | h
  · simp [h]
  · simp [h]

theorem createPost_ok (s : PostStore) {title body : String}
    (ht : jsTrim title ≠ "") (hb : jsTrim body ≠ "") :
    Api.createPost s title body =
      ({ status := 201, body := .created (newPostOf s title body) },
       { posts := s.posts ++ [newPostOf s title body] }) := by
  simp [Api.createPost, validateCreateBody_eq_some ht hb,
    PostController.createPost, PostService.createPost, newPostOf]

theorem fresh_id {s : PostStore} (hs : Reachable s) :
    ∀ q ∈ s.posts, q.id ≠ (s.posts.length : Int) + 1 := by
  intro q hq
  have hmap := reachable_ids_sequential_aux hs
  have hmem : q.id ∈ s.posts.map Post.id := List.mem_map_of_mem _ hq
  rw [hmap] at hmem
  have hrange := mem_intRange hmem
  omega

/-- C1: for every creation payload whose `title` and `body` are non-empty
after trimming, `createPost` on a reachable store returns status 201 with the
`CREATED` envelope carrying a post whose id differs from the id of every post
already in the store and whose `title`/`body` are the trimmed inputs; the new
post is appended to the store. -/
theorem claim_createPost_valid (s : PostStore) (title body : String)
    (hs : Reachable s) (ht : jsTrim title ≠ "") (hb : jsTrim body ≠ "") :
    ∃ p : Post,
      Api.createPost s title body =
        ({ status := 201, body := .created p }, { posts := s.posts ++ [p] }) ∧
      p.title = jsTrim title ∧ p.body = jsTrim body ∧
      ∀ q ∈ s.posts, q.id ≠ p.id := by
  refine ⟨newPostOf s title body, createPost_ok s ht hb, rfl, rfl, ?_⟩
  exact fresh_id hs

theorem claim_createPost_valid_witness :
    (Api.createPost seedStore "Hello" "World").1.status = 201 := by
  obtain ⟨p, hp, -, -, -⟩ :=
    claim_createPost_valid seedStore "Hello" "World" Reachable.seed
      (by decide) (by decide)
  rw [hp]

/-- C2: for every creation payload whose `title` or `body` trims to the empty
string, `createPost` answers the 400 `BAD_REQUEST` envelope, the store is
unchanged, and a subsequent `getPosts` returns the same response as before
the call. -/
theorem claim_createPost_invalid (s : PostStore) (title body : String)
    (h : jsTrim title = "" ∨ jsTrim body = "") :
    Api.createPost s title body =
      ({ status := 400, body := .badRequest validationFailedMessage }, s) ∧
    Api.getPosts (Api.createPost s title body).2 = Api.getPosts s := by
  have hv : Api.createPost s title body =
      ({ status := 400, body := .badRequest validationFailedMessage }, s) := by
    simp [Api.createPost, validateCreateBody_eq_none h]
  exact ⟨hv, by rw [hv]⟩

theorem claim_createPost_invalid_witness :
    Api.createPost seedStore "   " "World" =
      ({ status := 400, body := .badRequest validationFailedMessage },
       seedStore) :=
  (claim_createPost_invalid seedStore "   " "World" (Or.inl (by decide))).1

/-- C3: for every coerced id under which no stored post compares equal (in
particular every number designating no stored post), `getPost` answers the
404 `NOT_FOUND` envelope; and for the post returned by an immediately
preceding successful `createPost`, `getPost` with that post's id (the
integer the coercion of its textual form delivers) answers 200 with the
created post as data. -/
theorem claim_getPost_found_and_missing (s : PostStore) (id : JsNum)
    (title body : String) :
    ((∀ q ∈ s.posts, jsStrictEq q.id id = false) →
      PostController.getPostById s id =
        ({ status := 404, body := .notFound "Post not found" }, s)) ∧
    (Reachable s → jsTrim title ≠ "" → jsTrim body ≠ "" →
      ∀ (p : Post) (s2 : PostStore),
        Api.createPost s title body =
          ({ status := 201, body := .created p }, s2) →
        PostController.getPostById s2 (.finite p.id 0) =
          ({ status := 200, body := .okPost p }, s2)) := by
  constructor
  · intro hmiss
    have hnone : PostService.getPostById s id = none := by
      rw [getPostById_eq_find?]
      exact List.find?_eq_none.mpr (fun q hq => by
        simp [hmiss q hq])
    simp [PostController.getPostById, hnone]
  · intro hr ht hb p s2 heq
    rw [createPost_ok s ht hb] at heq
    obtain ⟨h1, h2⟩ := Prod.mk.injEq .. ▸ heq
    have hp : p = newPostOf s title body := by
      have := congrArg Response.body h1
      simpa [ApiBody.created.injEq] using this.symm
    subst hp
    subst h2
    have hnone : s.posts.find?
        (fun q => jsStrictEq q.id (.finite (newPostOf s title body).id 0)) =
          none :=
      List.find?_eq_none.mpr (fun q hq => by
        rw [jsStrictEq_finite_zero]
        simpa [newPostOf] using fresh_id hr q hq)
    have hfind : PostService.getPostById
        { posts := s.posts ++ [newPostOf s title body] }
        (.finite (newPostOf s title body).id 0) =
          some (newPostOf s title body) := by
      rw [getPostById_eq_find?]
      show (s.posts ++ [newPostOf s title body]).find? _ = _
      rw [List.find?_append, hnone]
      simp [List.find?_singleton, jsStrictEq_finite_zero]
    simp [PostController.getPostById, hfind]

theorem claim_getPost_found_and_missing_witness :
    PostController.getPostById seedStore (.finite 999 0) =
      ({ status := 404, body := .notFound "Post not found" }, seedStore) ∧
    PostController.getPostById
        { posts := seedPosts ++ [{ id := 3, title := "Hello", body := "World" }] }
        (.finite 3 0) =
      ({ status := 200,
         body := .okPost { id := 3, title := "Hello", body := "World" } },
       { posts := seedPosts ++ [{ id := 3, title := "Hello", body := "World" }] }) :=
  ⟨(claim_getPost_found_and_missing seedStore (.finite 999 0) "x" "y").1
     (by decide),
   (claim_getPost_found_and_missing seedStore (.finite 3 0) "Hello" "World").2
     Reachable.seed (by decide) (by decide)
     { id := 3, title := "Hello", body := "World" } _ (by decide)⟩

/-- C4, counterexample to the claim as stated: at process start (the empty
call sequence) no successful `createPost` has happened, yet `getPosts`
returns the two seed posts, so the returned array's length (2) differs from
the number of successful `createPost` calls (0). -/
theorem claim_getPosts_count_counterexample :
    (Api.getPosts (runCalls [])).1 =
      { status := 200, body := .okPosts seedPosts } ∧
    seedPosts.length = 2 ∧
    successfulCreates ([] : List Call) = 0 ∧
    (2 : Nat) ≠ 0 := by decide

/-- C4, amended: after any call sequence, `getPosts` answers 200 with the
`OK` envelope carrying the stored list, whose length is the number of seed
posts (2) plus the number of successful `createPost` calls made so far. -/
theorem claim_getPosts_count_amended (cs : List Call) :
    (Api.getPosts (runCalls cs)).1 =
      { status := 200, body := .okPosts (runCalls cs).posts } ∧
    (runCalls cs).posts.length = seedPosts.length + successfulCreates cs :=
  ⟨rfl, runCalls_length cs⟩

/-- C5: the concrete scenario from the seed store: creating
`{title: "Hello", body: "World"}` answers
201 `{status: "CREATED", data: {id: 3, title: "Hello", body: "World"}}`;
then `getPost` on the textual id `3` answers 200 with the same data; then
`getPost` on `999` answers 404
`{status: "NOT_FOUND", message: "Post not found"}`. -/
theorem claim_concrete_scenario :
    (Api.createPost seedStore "Hello" "World").1 =
      { status := 201,
        body := .created { id := 3, title := "Hello", body := "World" } } ∧
    (Api.getPost (Api.createPost seedStore "Hello" "World").2 "3").1 =
      { status := 200,
        body := .okPost { id := 3, title := "Hello", body := "World" } } ∧
    (Api.getPost (Api.createPost seedStore "Hello" "World").2 "999").1 =
      { status := 404, body := .notFound "Post not found" } := by decide

/-- C6: every `{status, body}` pair any of the three controller handlers
returns has its HTTP status code and envelope tag inside the fixed pairing
200 with OK, 201 with CREATED, 404 with NOT_FOUND; in particular CREATED is
only ever sent with 201, OK only with 200, NOT_FOUND only with 404. -/
theorem claim_tag_status_pairing (s : PostStore) (id : JsNum)
    (title body : String) :
    (((PostController.getAllPosts s).1.status,
       (PostController.getAllPosts s).1.body.tag) ∈ handlerPairing) ∧
    (((PostController.getPostById s id).1.status,
       (PostController.getPostById s id).1.body.tag) ∈ handlerPairing) ∧
    (((PostController.createPost s title body).1.status,
       (PostController.createPost s title body).1.body.tag) ∈
      handlerPairing) := by
  refine ⟨?_, ?_, ?_⟩
  · simp [PostController.getAllPosts, ApiBody.tag, handlerPairing]
  · cases hp : PostService.getPostById s id <;>
      simp [PostController.getPostById, hp, ApiBody.tag, handlerPairing]
  · simp [PostController.createPost, ApiBody.tag, handlerPairing]

/-- C7: the claim says an exception in handler logic surfaces as the declared
`{status: "INTERNAL_SERVER_ERROR", message}` envelope with HTTP 500.  The
code instead throws `new HttpException('Internal Server Error', 500)`, whose
surfaced body `{statusCode: 500, message: "Internal Server Error"}` carries
no `status` discriminant and is not the declared envelope, although the HTTP
status is indeed 500. -/
theorem claim_exception_surfaces_nest_body :
    PostController.getAllPostsCaught (.error "service failure") =
      { status := 500, body := .nestError 500 "Internal Server Error" } ∧
    (ApiBody.nestError 500 "Internal Server Error").tag ≠
      some "INTERNAL_SERVER_ERROR" ∧
    ∀ m : String,
      ApiBody.nestError 500 "Internal Server Error" ≠
        .internalServerError m :=
  ⟨rfl, by decide, fun m h => ApiBody.noConfusion h⟩

/-- C8: the textual `:id` path segment is coerced by `z.coerce.number()` to
a number before the handler runs: whenever the coercion yields a number the
handler is invoked with exactly that number as `params.id`, and whenever the
segment is not a numeric string (JavaScript `Number()` yields NaN, which
`z.number()` rejects) validation fails with the 400 envelope and the handler
is not invoked (store untouched). -/
theorem claim_getPost_id_coercion (s : PostStore) (raw : String) :
    (∀ id : JsNum, coerceNumber raw = some id →
      Api.getPost s raw = PostController.getPostById s id) ∧
    (coerceNumber raw = none →
      Api.getPost s raw =
        ({ status := 400, body := .badRequest validationFailedMessage },
         s)) := by
  constructor
  · intro id h
    simp [Api.getPost, h]
  · intro h
    simp [Api.getPost, h]

theorem claim_getPost_id_coercion_witness :
    Api.getPost seedStore "1.5" =
      PostController.getPostById seedStore (.finite 15 (-1)) ∧
    Api.getPost seedStore " 2 " =
      PostController.getPostById seedStore (.finite 2 0) ∧
    Api.getPost seedStore "1e2" =
      PostController.getPostById seedStore (.finite 1 2) ∧
    Api.getPost seedStore "abc" =
      ({ status := 400, body := .badRequest validationFailedMessage },
       seedStore) :=
  ⟨(claim_getPost_id_coercion seedStore "1.5").1 (.finite 15 (-1))
     (by decide),
   (claim_getPost_id_coercion seedStore " 2 ").1 (.finite 2 0) (by decide),
   (claim_getPost_id_coercion seedStore "1e2").1 (.finite 1 2) (by decide),
   (claim_getPost_id_coercion seedStore "abc").2 (by decide)⟩

/-- C9: the read operations are side-effect free: for every store and every
argument, `getPosts` and `getPost` (including the coercion boundary) leave
the stored list of posts exactly as it was before the call. -/
theorem claim_reads_no_side_effects (s : PostStore) (id : JsNum)
    (raw : String) :
    (PostController.getAllPosts s).2 = s ∧
    (PostController.getPostById s id).2 = s ∧
    (Api.getPosts s).2 = s ∧
    (Api.getPost s raw).2 = s := by
  refine ⟨rfl, ?_, rfl, stepCall_reads_id s raw⟩
  cases hp : PostService.getPostById s id <;>
    simp [PostController.getPostById, hp]

/-- C10: in every store state reachable from the seed state by `createPost`,
`getPostById` and `getAllPosts` calls, the post at 0-based index `i` has id
`i + 1` (so the ids are exactly `1, ..., n` in order), and all stored ids are
pairwise distinct. -/
theorem claim_store_ids_invariant (s : PostStore) (hs : Reachable s) :
    (∀ i (h : i < s.posts.length), (s.posts.get ⟨i, h⟩).id = (i : Int) + 1) ∧
    (s.posts.map Post.id).Nodup := by
  have hmap := reachable_ids_sequential_aux hs
  constructor
  · intro i h
    have h1 : (s.posts.map Post.id)[i]? = some ((i : Int) + 1) := by
      rw [hmap]
      exact getElem?_intRange _ _ h
    rw [List.getElem?_map, List.getElem?_eq_getElem h] at h1
    simpa using h1
  · rw [hmap]
    exact intRange_nodup _

theorem claim_store_ids_invariant_witness :
    (seedStore.posts.map Post.id).Nodup ∧
    (seedStore.posts.get ⟨0, by decide⟩).id = (0 : Int) + 1 :=
  ⟨(claim_store_ids_invariant seedStore Reachable.seed).2,
   (claim_store_ids_invariant seedStore Reachable.seed).1 0 (by decide)⟩
